import Mathlib

/-!
Shallow embedding of the plumber pipeline supervisor (src/pipeline.rs)
and proofs about its parser, process-chain builder, supervisor and
stop/registry protocol.

Modelling conventions:
* Rust panics (Vec::remove on an empty vector, `unwrap`, `expect`,
  slice-index panics, `assert!`) are modelled as `Option.none` or as
  `Except.error msg` carrying the panic message, as noted per function.
* File-system and process effects are modelled by explicit state or by
  environment parameters (e.g. which executables can be spawned, what
  the metadata read returns).
-/

namespace Plumber

/-! Character constants, named to mirror the escape characters of the
Rust `shlex` tokenizer. -/

def squoteC : Char := Char.ofNat 39

def dquoteC : Char := Char.ofNat 34

def bslashC : Char := Char.ofNat 92

def btickC : Char := Char.ofNat 96

def nlC : Char := Char.ofNat 10

def tabC : Char := Char.ofNat 9

/-- Whitespace as recognised by the `shlex` word splitter: space, tab,
newline. -/
def isShWs (c : Char) : Bool := c = ' ' || c = tabC || c = nlC

/-- Lexer mode of the `shlex` tokenizer: between words, inside a
comment, inside a bare word, after a backslash in a bare word, inside
single quotes, inside double quotes, after a backslash inside double
quotes. -/
inductive ShMode
  | between
  | comment
  | word
  | wesc
  | single
  | double
  | desc
deriving DecidableEq

/-- One-character-at-a-time transcription of `shlex::split`
(`Shlex::next` / `parse_word` / `parse_single` / `parse_double` of the
`shlex` crate): `none` models `had_error` (unbalanced quote or trailing
backslash), `some ws` the produced word list. -/
def shlexRun : List Char → ShMode → List Char → List (List Char) → Option (List (List Char))
  | [], .between, _, ws => some ws
  | [], .comment, _, ws => some ws
  | [], .word, acc, ws => some (ws ++ [acc])
  | [], .wesc, _, _ => none
  | [], .single, _, _ => none
  | [], .double, _, _ => none
  | [], .desc, _, _ => none
  | c :: rest, .between, _, ws =>
    if isShWs c then shlexRun rest .between [] ws
    else if c = '#' then shlexRun rest .comment [] ws
    else if c = dquoteC then shlexRun rest .double [] ws
    else if c = squoteC then shlexRun rest .single [] ws
    else if c = bslashC then shlexRun rest .wesc [] ws
    else shlexRun rest .word [c] ws
  | c :: rest, .comment, _, ws =>
    if c = nlC then shlexRun rest .between [] ws
    else shlexRun rest .comment [] ws
  | c :: rest, .word, acc, ws =>
    if isShWs c then shlexRun rest .between [] (ws ++ [acc])
    else if c = dquoteC then shlexRun rest .double acc ws
    else if c = squoteC then shlexRun rest .single acc ws
    else if c = bslashC then shlexRun rest .wesc acc ws
    else shlexRun rest .word (acc ++ [c]) ws
  | c :: rest, .wesc, acc, ws =>
    if c = nlC then shlexRun rest .word acc ws
    else shlexRun rest .word (acc ++ [c]) ws
  | c :: rest, .single, acc, ws =>
    if c = squoteC then shlexRun rest .word acc ws
    else shlexRun rest .single (acc ++ [c]) ws
  | c :: rest, .double, acc, ws =>
    if c = bslashC then shlexRun rest .desc acc ws
    else if c = dquoteC then shlexRun rest .word acc ws
    else shlexRun rest .double (acc ++ [c]) ws
  | c :: rest, .desc, acc, ws =>
    if c = '$' || c = btickC || c = dquoteC || c = bslashC then shlexRun rest .double (acc ++ [c]) ws
    else if c = nlC then shlexRun rest .double acc ws
    else shlexRun rest .double (acc ++ [bslashC, c]) ws

/-- `shlex::split` on one pipe segment. -/
def shlexTokens (s : List Char) : Option (List String) :=
  (shlexRun s .between [] []).map (fun ws => ws.map (fun w => String.mk w))

/-- `raw_pipeline.split('|')`: split into segments at every pipe
character, keeping empty segments, exactly like Rust `str::split`. -/
def splitPipe : List Char → List (List Char)
  | [] => [[]]
  | c :: rest =>
    if c = '|' then [] :: splitPipe rest
    else
      match splitPipe rest with
      | [] => [[c]]
      | seg :: segs => (c :: seg) :: segs

/-- The `split_on_whitespace` stage of `Pipeline::parse_raw_pipeline`:
tokenize each pipe-separated segment with `shlex::split`, and replace a
failed tokenization by the empty token list (`unwrap_or_default`). -/
def tokenizeSegments (raw : String) : List (List String) :=
  (splitPipe raw.data).map (fun seg => (shlexTokens seg).getD [])

/-- One stage of the pipeline: executable name and arguments
(`PipelineCommand` in the source). -/
structure PipelineCommand where
  name : String
  args : List String
deriving DecidableEq

/-- `PipelineCommand::new` performs `cmd.remove(0)`, which panics when
the token vector is empty; the panic is modelled as `none`. -/
def PipelineCommand.new : List String → Option PipelineCommand
  | [] => none
  | n :: rest => some { name := n, args := rest }

/-- The `.map(PipelineCommand::new).collect()` step: builds the command
list in order; the first empty token list panics (`none`). -/
def mapCommands : List (List String) → Option (List PipelineCommand)
  | [] => some []
  | t :: ts =>
    match PipelineCommand.new t with
    | none => none
    | some c =>
      match mapCommands ts with
      | none => none
      | some cs => some (c :: cs)

/-- `Pipeline::parse_raw_pipeline`: split on pipes, tokenize each
segment, build `PipelineCommand`s, and `assert!` the result is
non-empty (the assert panic is also modelled as `none`). -/
def parse_raw_pipeline (raw : String) : Option (List PipelineCommand) :=
  match mapCommands (tokenizeSegments raw) with
  | none => none
  | some cmds => if cmds = [] then none else some cmds

/-! Error model: `std::io::ErrorKind` restricted to the kinds the code
distinguishes, and the crate's `PipelineError`. -/

/-- The I/O error kinds relevant to the code: `NotFound`,
`PermissionDenied`, and everything else. -/
inductive IoErrKind
  | notFound
  | permissionDenied
  | otherErr
deriving DecidableEq

/-- `PipelineError` from the source: only `FileNotFound` and `Other`
exist; there is no parse, spawn or signal variant. -/
inductive PipelineError
  | FileNotFound
  | Other
deriving DecidableEq

/-- The `impl From<std::io::Error> for PipelineError`: `NotFound` maps
to `FileNotFound`, every other kind to `Other`. -/
def pipelineErrorFromIo : IoErrKind → PipelineError
  | .notFound => PipelineError.FileNotFound
  | .permissionDenied => PipelineError.Other
  | .otherErr => PipelineError.Other

/-! Paths. `Path::join` and `Path::with_extension` as the code uses
them, modelled on strings. -/

def LOGGING_DIR : String := "/tmp/plumber/log"

def METADATA_DIR : String := "/tmp/plumber/lib"

/-- Rust `Path::join`: appending an absolute path replaces the whole
path, otherwise a separator and the component are appended. -/
def pathJoin (dir fname : String) : String :=
  if fname.data.head? = some '/' then fname else dir ++ "/" ++ fname

/-- Splits a reversed character list at the first occurrence of `sep`
(the last occurrence in the unreversed list): returns the reversed
pieces after and before it, or `none` when `sep` does not occur. -/
def revSplitFirst (sep : Char) : List Char → Option (List Char × List Char)
  | [] => none
  | c :: rest =>
    if c = sep then some ([], rest)
    else
      match revSplitFirst sep rest with
      | none => none
      | some (a, b) => some (c :: a, b)

/-- Splits a path into its directory prefix (with trailing slash) and
its final component. -/
def splitFileName (p : List Char) : List Char × List Char :=
  match revSplitFirst '/' p.reverse with
  | none => ([], p)
  | some (fr, dr) => (dr.reverse ++ ['/'], fr.reverse)

/-- Rust `Path::file_stem` / `extension` on a file name: the part after
the last dot is the extension, except when that dot is the leading
character. -/
def fileNameSplit (f : List Char) : List Char × Option (List Char) :=
  match revSplitFirst '.' f.reverse with
  | none => (f, none)
  | some (er, br) => if br = [] then (f, none) else (br.reverse, some er.reverse)

/-- Rust `Path::with_extension ext` (for non-empty `ext`): replace the
final component's extension by `ext`; a path with no final component
(empty or `..`) is returned unchanged, as `set_extension` then does
nothing. -/
def withExtension (p ext : List Char) : List Char :=
  let dn := splitFileName p
  if dn.2 = [] ∨ dn.2 = ['.', '.'] then p
  else dn.1 ++ (fileNameSplit dn.2).1 ++ '.' :: ext

/-- The stderr log path of one stage:
`logging_dir.join(cmd.name).with_extension("stderr.log")`. -/
def logFilePath (logdir name : String) : String :=
  String.mk (withExtension (pathJoin logdir name).data "stderr.log".data)

/-! The pipeline record and its constructor. -/

/-- The `Pipeline` struct: name, raw expression, parsed commands,
spawned jobs (modelled by their OS pids), and the two derived
directories. -/
structure Pipeline where
  name : String
  raw_pipeline : String
  commands : List PipelineCommand
  jobs : List Nat
  metadata_dir : String
  logging_dir : String
deriving DecidableEq

/-- `Pipeline::new`: parse first (a parse panic propagates, modelled by
the outer `none`), then create the two directories (an I/O failure
`dirs` converts through `pipelineErrorFromIo`), then build the record
with no jobs yet. -/
def pipelineNew (name raw : String) (dirs : Except IoErrKind Unit) :
    Option (Except PipelineError Pipeline) :=
  match parse_raw_pipeline raw with
  | none => none
  | some cmds =>
    match dirs with
    | .error e => some (.error (pipelineErrorFromIo e))
    | .ok _ => some (.ok
        { name := name, raw_pipeline := raw, commands := cmds, jobs := [],
          metadata_dir := pathJoin METADATA_DIR name,
          logging_dir := pathJoin LOGGING_DIR name })

/-- `Pipeline::get_first_pid`: `jobs.first().unwrap().id().to_string()`.
The `unwrap` panics on an empty job list (modelled as `none`); otherwise
the head pid is rendered in decimal. -/
def get_first_pid (jobs : List Nat) : Option String :=
  jobs.head?.map (fun pid => toString pid)

/-! The stop operation and its kill subprocess. -/

/-- The kill command `stop` issues: a signal name and a target pid
string. -/
structure KillCmd where
  signal : String
  target : String
deriving DecidableEq

/-- `Pipeline::stop`, with the file system and the kill subprocess as
parameters: `readPid` is what `fs::read_to_string(metadata/.pid)`
returns, and `kill kc` is what `Command::new("kill").status()` returns
for the issued command `kc` — an I/O error when the kill binary cannot
be launched, otherwise kill's exit status. The exit status is bound to
`_` in the source and discarded; success returns the single kill
command that was issued. -/
def stop (readPid : Except IoErrKind String)
    (kill : KillCmd → Except IoErrKind Nat) :
    Except PipelineError KillCmd :=
  match readPid with
  | .error e => .error (pipelineErrorFromIo e)
  | .ok pid =>
    let kc : KillCmd := { signal := "SIGTERM", target := pid }
    match kill kc with
    | .error e => .error (pipelineErrorFromIo e)
    | .ok _ => .ok kc

/-! The process-chain builder (`Pipeline::spawn_all` /
`Pipeline::spawn_process`). A `Stdio` configuration is either
inherited, one end of a numbered anonymous OS pipe, or a log file. -/

inductive StdioSpec
  | inheritIo
  | pipeWrite (k : Nat)
  | pipeRead (k : Nat)
  | logFile (path : String)
deriving DecidableEq

/-- One spawned child process as configured by `spawn_process`: command
name, arguments, and the three standard streams. -/
structure SpawnedProc where
  name : String
  args : List String
  stdin : StdioSpec
  stdout : StdioSpec
  stderr : StdioSpec
deriving DecidableEq

/-- A default process record, used only as the `List.getD` fallback. -/
def noProc : SpawnedProc :=
  { name := "", args := [], stdin := .inheritIo, stdout := .inheritIo,
    stderr := .inheritIo }

/-- A default command, used only as the `List.getD` fallback. -/
def noCmd : PipelineCommand := { name := "", args := [] }

/-- The loop of `spawn_all`: every stage but the last gets a fresh
pipe (`Stdio::piped()`, numbered by `k`) as stdout, whose read end
(`child.stdout.take()`) becomes the next stage's stdin; the last stage
inherits the supervisor's stdout. Each stage's stderr is the
`File::create`d log file. `prev` is the running `prev_stdout`, which
starts as `Stdio::inherit()`. -/
def spawn_chain (logdir : String) : StdioSpec → Nat → List PipelineCommand → List SpawnedProc
  | _, _, [] => []
  | prev, _, [last] =>
    [{ name := last.name, args := last.args, stdin := prev,
       stdout := .inheritIo, stderr := .logFile (logFilePath logdir last.name) }]
  | prev, k, cmd :: next :: rest =>
    { name := cmd.name, args := cmd.args, stdin := prev,
      stdout := .pipeWrite k, stderr := .logFile (logFilePath logdir cmd.name) } ::
    spawn_chain logdir (.pipeRead k) (k + 1) (next :: rest)

/-- `Pipeline::spawn_all` on an already-parsed command list. On an
empty list the slice `commands[..len - 1]` panics (modelled `none`);
parsing guarantees non-emptiness. -/
def spawn_all (logdir : String) (cmds : List PipelineCommand) : Option (List SpawnedProc) :=
  if cmds = [] then none else some (spawn_chain logdir .inheritIo 0 cmds)

/-- The panic message of `spawn_process`'s
`.expect(&format!("Failed to spawn command: {} {}", name, args.join(" ")))`. -/
def spawnMsg (name : String) (args : List String) : String :=
  "Failed to spawn command: " ++ name ++ " " ++ String.intercalate " " args

/-- `spawn_chain` with fallible spawning: `ok name` says whether the
OS can spawn that executable; the first stage whose spawn fails panics
with `spawnMsg` (modelled as `Except.error`), spawning strictly in
stage order. -/
def spawn_chainF (ok : String → Bool) (logdir : String) :
    StdioSpec → Nat → List PipelineCommand → Except String (List SpawnedProc)
  | _, _, [] => .ok []
  | prev, _, [last] =>
    if ok last.name then
      .ok [{ name := last.name, args := last.args, stdin := prev,
             stdout := .inheritIo, stderr := .logFile (logFilePath logdir last.name) }]
    else .error (spawnMsg last.name last.args)
  | prev, k, cmd :: next :: rest =>
    if ok cmd.name then
      match spawn_chainF ok logdir (.pipeRead k) (k + 1) (next :: rest) with
      | .error m => .error m
      | .ok procs =>
        .ok ({ name := cmd.name, args := cmd.args, stdin := prev,
               stdout := .pipeWrite k, stderr := .logFile (logFilePath logdir cmd.name) } :: procs)
    else .error (spawnMsg cmd.name cmd.args)

/-- `spawn_all` with fallible spawning; the empty-slice panic keeps its
Rust overflow message. -/
def spawn_allF (ok : String → Bool) (logdir : String) (cmds : List PipelineCommand) :
    Except String (List SpawnedProc) :=
  if cmds = [] then .error "attempt to subtract with overflow"
  else spawn_chainF ok logdir .inheritIo 0 cmds

/-! The supervisor (`Pipeline::run`). Its externally visible actions
are the pid-record write, the in-order waits, and the pid-record
removal; the registry is the content of `<metadata_dir>/.pid`. -/

inductive RunEvent
  | writePid (s : String)
  | wait (j : Nat)
  | removePid
deriving DecidableEq

/-- Supervisor-visible state: the pid record (file present with this
content, or absent) and the ordered log of actions taken. -/
structure SupState where
  registry : Option String
  events : List RunEvent
deriving DecidableEq

/-- The wait loop `for jobs in &mut self.jobs { jobs.wait().unwrap() }`:
one blocking wait per job, in stage order. -/
def waitSeq (jobs : List Nat) (st : SupState) : SupState :=
  jobs.foldl (fun s j => { s with events := s.events ++ [RunEvent.wait j] }) st

/-- `Pipeline::run` after `spawn_all` has populated `jobs`: read the
head pid (`get_first_pid` panics on no jobs, modelled `none`), create
and write the `.pid` record, wait for every job in order, then remove
the record. -/
def run (jobs : List Nat) (st : SupState) : Option SupState :=
  match get_first_pid jobs with
  | none => none
  | some p =>
    let st1 : SupState := { registry := some p, events := st.events ++ [RunEvent.writePid p] }
    let st2 := waitSeq jobs st1
    some { registry := none, events := st2.events ++ [RunEvent.removePid] }

/-- The whole of `Pipeline::run` over fallible spawning: `spawn_all`
runs first; a spawn panic propagates out of `run` before the pid write
and before any wait, leaving the state untouched. `pids` are the OS
pids the environment assigns to the spawned jobs. -/
def runF (ok : String → Bool) (logdir : String) (cmds : List PipelineCommand)
    (pids : List Nat) (st : SupState) : SupState × Option String :=
  match spawn_allF ok logdir cmds with
  | .error m => (st, some m)
  | .ok _ =>
    match run pids st with
    | none => (st, some "called `Option::unwrap()` on a `None` value")
    | some st2 => (st2, none)

/-! Helper lemmas. -/

lemma splitPipe_ne_nil (s : List Char) : splitPipe s ≠ [] := by
  cases s with
  | nil => simp [splitPipe]
  | cons c rest =>
    unfold splitPipe
    split
    · simp
    · cases hsp : splitPipe rest <;> simp

lemma splitPipe_length (s : List Char) : (splitPipe s).length = s.count '|' + 1 := by
  induction s with
  | nil => simp [splitPipe]
  | cons c rest ih =>
    unfold splitPipe
    by_cases hc : c = '|'
    · simp [hc, List.count_cons, ih]
    · cases hsp : splitPipe rest with
      | nil => exact absurd hsp (splitPipe_ne_nil rest)
      | cons seg segs =>
        rw [hsp] at ih
        simp [hc, List.count_cons] at ih ⊢
        omega

lemma mapCommands_none (ts : List (List String)) (h : [] ∈ ts) :
    mapCommands ts = none := by
  induction ts with
  | nil => simp at h
  | cons t ts ih =>
    rcases List.mem_cons.mp h with h1 | h2
    · subst h1
      simp [mapCommands, PipelineCommand.new]
    · unfold mapCommands
      cases PipelineCommand.new t with
      | none => rfl
      | some c => rw [ih h2]

lemma waitSeq_eq (jobs : List Nat) (st : SupState) :
    waitSeq jobs st = { registry := st.registry, events := st.events ++ jobs.map RunEvent.wait } := by
  induction jobs generalizing st with
  | nil => simp [waitSeq]
  | cons j js ih =>
    unfold waitSeq at ih ⊢
    rw [List.foldl_cons, ih]
    simp

lemma revSplitFirst_eq_none (sep : Char) (l : List Char) (h : sep ∉ l) :
    revSplitFirst sep l = none := by
  induction l with
  | nil => rfl
  | cons c rest ih =>
    simp at h
    have hc : ¬ c = sep := fun hc => h.1 hc.symm
    simp [revSplitFirst, hc, ih h.2]

lemma revSplitFirst_append (sep : Char) (l r : List Char) (h : sep ∉ l) :
    revSplitFirst sep (l ++ sep :: r) = some (l, r) := by
  induction l with
  | nil => simp [revSplitFirst]
  | cons c rest ih =>
    simp at h
    have hc : ¬ c = sep := fun hc => h.1 hc.symm
    simp [revSplitFirst, hc, ih h.2]

lemma parse_nonempty (raw : String) (cmds : List PipelineCommand)
    (h : parse_raw_pipeline raw = some cmds) : cmds ≠ [] := by
  unfold parse_raw_pipeline at h
  cases hmc : mapCommands (tokenizeSegments raw) with
  | none => rw [hmc] at h; exact absurd h (by simp)
  | some l =>
    rw [hmc] at h
    dsimp only at h
    by_cases hl : l = []
    · rw [if_pos hl] at h; exact absurd h (by simp)
    · rw [if_neg hl] at h
      cases h
      exact hl

lemma spawn_chain_length (logdir : String) (cmds : List PipelineCommand) :
    ∀ (prev : StdioSpec) (k : Nat), (spawn_chain logdir prev k cmds).length = cmds.length := by
  induction cmds with
  | nil => intro prev k; rfl
  | cons c rest ih =>
    intro prev k
    cases rest with
    | nil => rfl
    | cons c2 rest2 =>
      rw [spawn_chain]
      simp only [List.length_cons]
      rw [ih (.pipeRead k) (k + 1)]
      simp

lemma spawn_chain_getD (logdir : String) (cmds : List PipelineCommand) :
    ∀ (prev : StdioSpec) (k i : Nat), i < cmds.length →
      (spawn_chain logdir prev k cmds).getD i noProc =
        { name := (cmds.getD i noCmd).name, args := (cmds.getD i noCmd).args,
          stdin := if i = 0 then prev else StdioSpec.pipeRead (k + i - 1),
          stdout := if i + 1 = cmds.length then StdioSpec.inheritIo
                    else StdioSpec.pipeWrite (k + i),
          stderr := StdioSpec.logFile (logFilePath logdir ((cmds.getD i noCmd).name)) } := by
  induction cmds with
  | nil => intro prev k i h; simp at h
  | cons c rest ih =>
    intro prev k i h
    cases rest with
    | nil =>
      simp only [List.length_cons, List.length_nil] at h
      have h0 : i = 0 := by omega
      subst h0
      simp [spawn_chain]
    | cons c2 rest2 =>
      cases i with
      | zero =>
        have hne : ¬ (0 + 1 = (c :: c2 :: rest2).length) := by simp
        simp [spawn_chain, hne]
      | succ j =>
        have hj : j < (c2 :: rest2).length := by simpa using h
        rw [spawn_chain]
        simp only [List.getD_cons_succ]
        rw [ih (.pipeRead k) (k + 1) j hj]
        simp only [SpawnedProc.mk.injEq, List.getD_cons_succ]
        refine ⟨trivial, trivial, ?_, ?_, trivial⟩
        · rw [if_neg (Nat.succ_ne_zero j)]
          split_ifs with hj0
          · subst hj0; norm_num
          · simp only [StdioSpec.pipeRead.injEq]
            omega
        · simp only [List.length_cons]
          split_ifs with h1 h2 h2
          · rfl
          · omega
          · omega
          · simp only [StdioSpec.pipeWrite.injEq]
            omega

lemma spawn_chainF_fail (ok : String → Bool) (logdir : String) (cmds : List PipelineCommand) :
    ∀ (prev : StdioSpec) (k i : Nat), i < cmds.length →
      (∀ j, j < i → ok ((cmds.getD j noCmd).name) = true) →
      ok ((cmds.getD i noCmd).name) = false →
      spawn_chainF ok logdir prev k cmds =
        .error (spawnMsg ((cmds.getD i noCmd).name) ((cmds.getD i noCmd).args)) := by
  induction cmds with
  | nil => intro prev k i h; simp at h
  | cons c rest ih =>
    intro prev k i h hok hbad
    cases rest with
    | nil =>
      simp only [List.length_cons, List.length_nil] at h
      have h0 : i = 0 := by omega
      subst h0
      simp only [List.getD_cons_zero] at hbad ⊢
      simp [spawn_chainF, hbad]
    | cons c2 rest2 =>
      cases i with
      | zero =>
        simp only [List.getD_cons_zero] at hbad ⊢
        simp [spawn_chainF, hbad]
      | succ j =>
        have hj : j < (c2 :: rest2).length := by simpa using h
        have hc : ok c.name = true := by
          have := hok 0 (Nat.succ_pos j)
          simpa using this
        have hok2 : ∀ m, m < j → ok (((c2 :: rest2).getD m noCmd).name) = true := by
          intro m hm
          have := hok (m + 1) (by omega)
          simpa using this
        have hbad2 : ok (((c2 :: rest2).getD j noCmd).name) = false := by
          simpa using hbad
        rw [spawn_chainF]
        simp only [List.getD_cons_succ]
        rw [if_pos hc, ih (.pipeRead k) (k + 1) j hj hok2 hbad2]

/-! Claim theorems. -/

/-- C8: parsing `cat file -a -v | pv --force | grep 'a'` yields exactly
three commands, in order `cat [file, -a, -v]`, `pv [--force]`,
`grep [a]`, with the shell quotes stripped from the tokens. -/
theorem parse_three_stage_example :
    parse_raw_pipeline "cat file -a -v | pv --force | grep 'a'" =
      some [{ name := "cat", args := ["file", "-a", "-v"] },
            { name := "pv", args := ["--force"] },
            { name := "grep", args := ["a"] }] := by
  decide

/-- C9: `get_first_pid` on a pipeline with no spawned jobs panics
(`jobs.first().unwrap()`, modelled as `none`) rather than returning an
error value, and on any pipeline with at least one job it returns the
head job's pid rendered as a decimal string. -/
theorem get_first_pid_panics_or_head :
    get_first_pid [] = none ∧
    ∀ (p : Nat) (ps : List Nat), get_first_pid (p :: ps) = some (toString p) :=
  ⟨rfl, fun _ _ => rfl⟩

/-- C10: the parser splits its input into stage segments at every
occurrence of the pipe character — the segment count is always the
number of `|` characters plus one, whatever the input, so a `|` inside
single or double quotes still separates stages: splitting happens
before shell-style tokenization, which is applied per segment
afterwards. -/
theorem splits_on_every_pipe (raw : String) :
    (tokenizeSegments raw).length = raw.data.count '|' + 1 := by
  unfold tokenizeSegments
  rw [List.length_map]
  exact splitPipe_length raw.data

/-- C6: when the metadata record is absent the read inside `stop` fails
with I/O kind `NotFound`, which converts to `PipelineError.FileNotFound`;
every other I/O kind converts to `Other`, and the two are distinct, so
“not running” is distinguishable from other I/O failures at the
interface boundary. -/
theorem stop_notFound_distinguishable :
    (∀ k, stop (Except.error IoErrKind.notFound) k =
      Except.error PipelineError.FileNotFound) ∧
    pipelineErrorFromIo IoErrKind.notFound = PipelineError.FileNotFound ∧
    pipelineErrorFromIo IoErrKind.permissionDenied = PipelineError.Other ∧
    pipelineErrorFromIo IoErrKind.otherErr = PipelineError.Other ∧
    PipelineError.FileNotFound ≠ PipelineError.Other :=
  ⟨fun _ => rfl, rfl, rfl, rfl, by decide⟩

/-- C1: for a pipeline whose stages have all been spawned (a non-empty
job list), `run` first writes the head pid to the metadata record, then
waits on every process handle one at a time in stage order, and only
after all the waits removes the record and returns; afterwards no pid
record remains (`registry = none`). -/
theorem run_records_waits_removes (jobs : List Nat) (st : SupState) (h : jobs ≠ []) :
    ∃ p, jobs.head? = some p ∧
      run jobs st = some
        { registry := none,
          events := st.events ++ RunEvent.writePid (toString p) ::
            (jobs.map RunEvent.wait ++ [RunEvent.removePid]) } := by
  cases jobs with
  | nil => exact absurd rfl h
  | cons j js =>
    refine ⟨j, rfl, ?_⟩
    have hg : get_first_pid (j :: js) = some (toString j) := rfl
    unfold run
    rw [hg]
    dsimp only
    rw [waitSeq_eq]
    simp

/-- C1 witness: `run` on the spawned jobs `[5, 7]` writes pid 5, waits
on 5 then 7, and removes the record, ending with no pid record. -/
theorem run_records_waits_removes_witness :
    ([5, 7] : List Nat) ≠ [] ∧
    ∃ p, ([5, 7] : List Nat).head? = some p ∧
      run [5, 7] { registry := none, events := [] } = some
        { registry := none,
          events := [] ++ RunEvent.writePid (toString p) ::
            (([5, 7] : List Nat).map RunEvent.wait ++ [RunEvent.removePid]) } :=
  ⟨by decide, run_records_waits_removes [5, 7] { registry := none, events := [] } (by decide)⟩

/-- C3 counterexample: the expression `a || b` contains a segment that
parses to zero tokens, and the constructor aborts by a panic
(`Vec::remove(0)` on the empty token vector, modelled as the outer
`none`) instead of returning a `ParseError`: the code's error type
`PipelineError` has only `FileNotFound` and `Other`, no parse variant,
so no `ParseError` rejection exists — even with the directory creation
succeeding, `Pipeline::new` produces no error value at all. -/
theorem parse_rejects_by_panic_not_error :
    pipelineNew "p" "a || b" (Except.ok ()) = none := by
  rfl

/-- C3 amended: every pipeline expression containing a segment that
tokenizes to zero tokens (a whitespace-only segment, consecutive pipes,
or a segment whose tokenization fails and is defaulted to the empty
list) makes the parse abort with a panic (modelled `none`): the stage
is neither silently dropped nor turned into a command with an empty
name, but the rejection is a panic, not a `ParseError` value. -/
theorem empty_segment_panics (raw : String)
    (h : ∃ seg, seg ∈ splitPipe raw.data ∧ (shlexTokens seg).getD [] = []) :
    parse_raw_pipeline raw = none := by
  obtain ⟨seg, hm, he⟩ := h
  have hmem : ([] : List String) ∈ tokenizeSegments raw := by
    unfold tokenizeSegments
    exact List.mem_map.mpr ⟨seg, hm, he⟩
  unfold parse_raw_pipeline
  rw [mapCommands_none _ hmem]

/-- C3 witness: `a || b` has an empty segment between the two pipes,
and its parse panics. -/
theorem empty_segment_panics_witness :
    (∃ seg, seg ∈ splitPipe ("a || b").data ∧ (shlexTokens seg).getD [] = []) ∧
    parse_raw_pipeline "a || b" = none :=
  ⟨⟨[], by decide, by decide⟩, empty_segment_panics "a || b" ⟨[], by decide, by decide⟩⟩

/-- A kill subprocess that always launches and exits with status 1,
i.e. `kill` itself reports that the signal could not be delivered. -/
def killExitOne : KillCmd → Except IoErrKind Nat := fun _ => Except.ok 1

/-- C5 counterexample: with the record present (pid 1234) and signal
delivery failing — `kill` launches but exits with status 1 — `stop`
still returns success, because `let _ = ...status()?` discards the exit
status. The claim's “exits successfully only if the signal was actually
delivered, failing otherwise (SignalError)” is false: there is no
`SignalError` variant and delivery failure is not detected. -/
theorem stop_ok_despite_failed_delivery :
    stop (Except.ok "1234") killExitOne =
      Except.ok { signal := "SIGTERM", target := "1234" } := by
  rfl

/-- C5 amended: `stop` reads the head pid from the metadata path and
issues exactly one `kill -SIGTERM <pid>` (a terminate-request, not a
force-kill, addressed to that pid only). It succeeds iff the record was
read and the `kill` command itself could be launched; the kill exit
status — whether the signal was actually delivered — is discarded, and
a read failure propagates as the converted I/O error. -/
theorem stop_reads_then_sigterms (r : Except IoErrKind String)
    (k : KillCmd → Except IoErrKind Nat)
    (hk : ∀ kc, ∃ n, k kc = Except.ok n) :
    (∃ pid, r = Except.ok pid ∧
      stop r k = Except.ok { signal := "SIGTERM", target := pid }) ∨
    (∃ e, r = Except.error e ∧
      stop r k = Except.error (pipelineErrorFromIo e)) := by
  cases r with
  | error e => exact Or.inr ⟨e, rfl, rfl⟩
  | ok pid =>
    refine Or.inl ⟨pid, rfl, ?_⟩
    obtain ⟨n, hn⟩ := hk { signal := "SIGTERM", target := pid }
    unfold stop
    dsimp only
    rw [hn]

/-- C5 witness: with the record holding pid 42 and a kill subprocess
that launches (exiting 1), `stop` succeeds and the one signal issued is
SIGTERM to pid 42. -/
theorem stop_reads_then_sigterms_witness :
    (∃ pid, (Except.ok "42" : Except IoErrKind String) = Except.ok pid ∧
      stop (Except.ok "42") killExitOne =
        Except.ok { signal := "SIGTERM", target := pid }) ∨
    (∃ e, (Except.ok "42" : Except IoErrKind String) = Except.error e ∧
      stop (Except.ok "42") killExitOne = Except.error (pipelineErrorFromIo e)) :=
  stop_reads_then_sigterms (Except.ok "42") killExitOne (fun _ => ⟨1, rfl⟩)

/-- An environment in which only the executable `cat` can be spawned. -/
def okCat : String → Bool := fun n => n == "cat"

/-- C4 counterexample: the spawn failure does not carry the failing
stage's index. The pipelines `nonexistent-binary-xyz | cat` (failing
stage index 0) and `cat | nonexistent-binary-xyz` (failing stage index
1) abort with the identical error value — the `expect` panic message,
which names the command but no index — so the failure is not a
`SpawnError{stage_index, name}` value and cannot determine
`stage_index`. -/
theorem spawn_error_lacks_stage_index :
    spawn_allF okCat "/tmp/plumber/log/p"
        [{ name := "nonexistent-binary-xyz", args := [] }, { name := "cat", args := [] }] =
      spawn_allF okCat "/tmp/plumber/log/p"
        [{ name := "cat", args := [] }, { name := "nonexistent-binary-xyz", args := [] }] ∧
    spawn_allF okCat "/tmp/plumber/log/p"
        [{ name := "nonexistent-binary-xyz", args := [] }, { name := "cat", args := [] }] =
      Except.error "Failed to spawn command: nonexistent-binary-xyz " :=
  ⟨rfl, rfl⟩

/-- C4 amended: when the first spawn-failing stage of a pipeline is at
index `i`, spawning aborts with the panic
`Failed to spawn command: <name> <args>` naming that stage's command
(but not its index), and `run` aborts before writing the pid record or
attempting any process wait — the state is untouched. -/
theorem spawn_fail_aborts_before_wait (ok : String → Bool) (logdir : String)
    (cmds : List PipelineCommand) (pids : List Nat) (st : SupState) (i : Nat)
    (hi : i < cmds.length)
    (hok : ∀ j, j < i → ok ((cmds.getD j noCmd).name) = true)
    (hbad : ok ((cmds.getD i noCmd).name) = false) :
    spawn_allF ok logdir cmds =
      Except.error (spawnMsg ((cmds.getD i noCmd).name) ((cmds.getD i noCmd).args)) ∧
    runF ok logdir cmds pids st =
      (st, some (spawnMsg ((cmds.getD i noCmd).name) ((cmds.getD i noCmd).args))) := by
  have hne : cmds ≠ [] := by
    intro hnil
    rw [hnil] at hi
    simp at hi
  have hsp : spawn_allF ok logdir cmds =
      Except.error (spawnMsg ((cmds.getD i noCmd).name) ((cmds.getD i noCmd).args)) := by
    unfold spawn_allF
    rw [if_neg hne]
    exact spawn_chainF_fail ok logdir cmds .inheritIo 0 i hi hok hbad
  refine ⟨hsp, ?_⟩
  unfold runF
  rw [hsp]

/-- C4 witness: `nonexistent-binary-xyz | cat` in an environment where
only `cat` spawns fails at stage index 0 with the panic naming
`nonexistent-binary-xyz`, before any wait: `runF` leaves the initial
state untouched. -/
theorem spawn_fail_aborts_before_wait_witness :
    spawn_allF okCat "/tmp/plumber/log/p"
        [{ name := "nonexistent-binary-xyz", args := [] }, { name := "cat", args := [] }] =
      Except.error (spawnMsg "nonexistent-binary-xyz" []) ∧
    runF okCat "/tmp/plumber/log/p"
        [{ name := "nonexistent-binary-xyz", args := [] }, { name := "cat", args := [] }]
        [4242, 4243] { registry := none, events := [] } =
      ({ registry := none, events := [] }, some (spawnMsg "nonexistent-binary-xyz" [])) :=
  spawn_fail_aborts_before_wait okCat "/tmp/plumber/log/p"
    [{ name := "nonexistent-binary-xyz", args := [] }, { name := "cat", args := [] }]
    [4242, 4243] { registry := none, events := [] } 0 (by decide)
    (fun j hj => absurd hj (Nat.not_lt_zero j)) (by decide)

/-- C2: for every parsed pipeline, spawning yields exactly one live
process handle per stage, in stage order; for every stage `i` below the
last, stage `i`'s stdout is the write end of the freshly created pipe
numbered `i` and stage `i+1`'s stdin is that same pipe's read end; the
last stage's stdout is inherited from the supervisor; and each handle
carries its stage's command name and args. -/
theorem pipeline_spawn_wiring (raw logdir : String) (cmds : List PipelineCommand)
    (h : parse_raw_pipeline raw = some cmds) :
    ∃ procs, spawn_all logdir cmds = some procs ∧
      procs.length = cmds.length ∧
      (∀ i, i + 1 < cmds.length →
        (procs.getD i noProc).stdout = StdioSpec.pipeWrite i ∧
        (procs.getD (i + 1) noProc).stdin = StdioSpec.pipeRead i) ∧
      (procs.getD (cmds.length - 1) noProc).stdout = StdioSpec.inheritIo ∧
      (∀ i, i < cmds.length →
        (procs.getD i noProc).name = (cmds.getD i noCmd).name ∧
        (procs.getD i noProc).args = (cmds.getD i noCmd).args) := by
  have hne : cmds ≠ [] := parse_nonempty raw cmds h
  refine ⟨spawn_chain logdir .inheritIo 0 cmds, ?_, spawn_chain_length logdir cmds _ _, ?_, ?_, ?_⟩
  · unfold spawn_all
    rw [if_neg hne]
  · intro i hi
    constructor
    · rw [spawn_chain_getD logdir cmds .inheritIo 0 i (by omega)]
      simp only [Nat.zero_add]
      rw [if_neg (by omega)]
    · rw [spawn_chain_getD logdir cmds .inheritIo 0 (i + 1) hi]
      rw [if_neg (Nat.succ_ne_zero i)]
      simp only [StdioSpec.pipeRead.injEq]
      omega
  · have hlen : 0 < cmds.length := List.length_pos.mpr hne
    rw [spawn_chain_getD logdir cmds .inheritIo 0 (cmds.length - 1) (by omega)]
    simp only [Nat.zero_add]
    rw [if_pos (by omega)]
  · intro i hi
    rw [spawn_chain_getD logdir cmds .inheritIo 0 i hi]
    exact ⟨rfl, rfl⟩

/-- C2 witness: parsing `cat | wc -l` and spawning it produces exactly
2 process handles, with stage 0's stdout the write end of pipe 0 and
stage 1's stdin its read end, and stage 1's stdout inherited. -/
theorem pipeline_spawn_wiring_witness :
    parse_raw_pipeline "cat | wc -l" =
      some [{ name := "cat", args := [] }, { name := "wc", args := ["-l"] }] ∧
    ∃ procs, spawn_all "/tmp/plumber/log/p"
        [{ name := "cat", args := [] }, { name := "wc", args := ["-l"] }] = some procs ∧
      procs.length = 2 ∧
      (∀ i, i + 1 < 2 →
        (procs.getD i noProc).stdout = StdioSpec.pipeWrite i ∧
        (procs.getD (i + 1) noProc).stdin = StdioSpec.pipeRead i) ∧
      (procs.getD (2 - 1) noProc).stdout = StdioSpec.inheritIo ∧
      (∀ i, i < 2 →
        (procs.getD i noProc).name =
          (([{ name := "cat", args := [] }, { name := "wc", args := ["-l"] }] :
            List PipelineCommand).getD i noCmd).name ∧
        (procs.getD i noProc).args =
          (([{ name := "cat", args := [] }, { name := "wc", args := ["-l"] }] :
            List PipelineCommand).getD i noCmd).args) :=
  ⟨by decide, pipeline_spawn_wiring "cat | wc -l" "/tmp/plumber/log/p"
    [{ name := "cat", args := [] }, { name := "wc", args := ["-l"] }] (by decide)⟩

/-- Characterization of the log path for a plain stage name: no dot,
no slash, non-empty. -/
lemma logFilePath_plain (logdir name : String)
    (h1 : name.data ≠ []) (h2 : name.data.head? ≠ some '/')
    (h3 : '.' ∉ name.data) (h4 : '/' ∉ name.data) :
    logFilePath logdir name = logdir ++ "/" ++ name ++ ".stderr.log" := by
  have hjoin : pathJoin logdir name = logdir ++ "/" ++ name := by
    unfold pathJoin
    rw [if_neg h2]
  have hdata : (logdir ++ "/" ++ name).data = logdir.data ++ '/' :: name.data := by
    simp [String.data_append]
  have hrev : (logdir.data ++ '/' :: name.data).reverse =
      name.data.reverse ++ '/' :: logdir.data.reverse := by
    simp [List.reverse_append]
  have hmem4 : '/' ∉ name.data.reverse := by simpa using h4
  have hmem3 : '.' ∉ name.data.reverse := by simpa using h3
  have hsfn : splitFileName (logdir.data ++ '/' :: name.data) =
      (logdir.data ++ ['/'], name.data) := by
    unfold splitFileName
    rw [hrev, revSplitFirst_append '/' _ _ hmem4]
    simp
  have hfns : fileNameSplit name.data = (name.data, none) := by
    unfold fileNameSplit
    rw [revSplitFirst_eq_none '.' _ hmem3]
  have hdd : ¬ ((name.data = []) ∨ (name.data = ['.', '.'])) := by
    rintro (h | h)
    · exact h1 h
    · rw [h] at h3
      simp at h3
  have hwe : withExtension (logdir.data ++ '/' :: name.data) ("stderr.log".data) =
      (logdir.data ++ ['/']) ++ name.data ++ '.' :: "stderr.log".data := by
    unfold withExtension
    rw [hsfn]
    dsimp only
    rw [if_neg hdd, hfns]
  apply String.ext
  unfold logFilePath
  rw [hjoin]
  show withExtension (logdir ++ "/" ++ name).data ("stderr.log".data) =
    (logdir ++ "/" ++ name ++ ".stderr.log").data
  rw [hdata, hwe]
  have hsl : ".stderr.log".data = '.' :: "stderr.log".data := rfl
  simp [String.data_append, hsl]

/-- C7 counterexample: a stage name containing a dot does not get the
claimed path. `with_extension("stderr.log")` replaces an existing
extension, so stage `a.b` logs to `<log-dir>/a.stderr.log`, not to
`<log-dir>/a.b.stderr.log` as "the stage name followed by the suffix
.stderr.log" requires; the spawned handle's stderr goes to the replaced
path. -/
theorem stderr_path_drops_dotted_extension :
    spawn_all "/tmp/plumber/log/p" [{ name := "a.b", args := [] }] =
      some [{ name := "a.b", args := [], stdin := StdioSpec.inheritIo,
              stdout := StdioSpec.inheritIo,
              stderr := StdioSpec.logFile "/tmp/plumber/log/p/a.stderr.log" }] ∧
    ("/tmp/plumber/log/p/a.stderr.log" : String) ≠ "/tmp/plumber/log/p/a.b.stderr.log" := by
  constructor
  · decide
  · decide

/-- C7 amended: every spawned stage's stderr is a created/truncated
file at `logging_dir.join(name).with_extension("stderr.log")`; for a
stage name with no dot (and no slash, non-empty, not absolute) this is
exactly `<log-root>/<pipeline-name>/<stage-name>.stderr.log`, but a
name with an extension has that extension replaced rather than the
suffix appended. -/
theorem stderr_log_per_stage (logdir : String) (cmds : List PipelineCommand)
    (procs : List SpawnedProc) (h : spawn_all logdir cmds = some procs) :
    (∀ i, i < cmds.length →
      (procs.getD i noProc).stderr =
        StdioSpec.logFile (logFilePath logdir ((cmds.getD i noCmd).name))) ∧
    (∀ name : String, name.data ≠ [] → name.data.head? ≠ some '/' →
      '.' ∉ name.data → '/' ∉ name.data →
      logFilePath logdir name = logdir ++ "/" ++ name ++ ".stderr.log") := by
  have hproc : procs = spawn_chain logdir .inheritIo 0 cmds := by
    unfold spawn_all at h
    by_cases hne : cmds = []
    · rw [if_pos hne] at h
      exact absurd h (by simp)
    · rw [if_neg hne] at h
      cases h
      rfl
  subst hproc
  constructor
  · intro i hi
    rw [spawn_chain_getD logdir cmds .inheritIo 0 i hi]
  · intro name h1 h2 h3 h4
    exact logFilePath_plain logdir name h1 h2 h3 h4

/-- C7 witness: a one-stage pipeline `cat` spawned with log directory
`/tmp/plumber/log/p` writes its stderr to
`/tmp/plumber/log/p/cat.stderr.log`, which for the dotless name `cat`
is exactly the directory, the name and the suffix. -/
theorem stderr_log_per_stage_witness :
    ((([{ name := "cat", args := [], stdin := StdioSpec.inheritIo,
          stdout := StdioSpec.inheritIo,
          stderr := StdioSpec.logFile "/tmp/plumber/log/p/cat.stderr.log" }] :
        List SpawnedProc).getD 0 noProc).stderr =
      StdioSpec.logFile (logFilePath "/tmp/plumber/log/p" "cat")) ∧
    logFilePath "/tmp/plumber/log/p" "cat" =
      "/tmp/plumber/log/p" ++ "/" ++ "cat" ++ ".stderr.log" := by
  have h := stderr_log_per_stage "/tmp/plumber/log/p" [{ name := "cat", args := [] }]
    [{ name := "cat", args := [], stdin := StdioSpec.inheritIo,
       stdout := StdioSpec.inheritIo,
       stderr := StdioSpec.logFile "/tmp/plumber/log/p/cat.stderr.log" }] (by decide)
  exact ⟨h.1 0 (by decide), h.2 "cat" (by decide) (by decide) (by decide) (by decide)⟩

end Plumber
